import Mathlib

/-! # myserver: the persistent store, the token service and the bearer extractor

A shallow embedding of `db.go`, `auth.go` and the handlers of `chirps.go`
that the properties below are about.

Conventions of the embedding.

* A Go `map[K]V` is an `AList` (an association list without duplicate keys):
  `m[k] = v` is `AList.insert`, `delete(m, k)` is `AList.erase`, `v, ok := m[k]`
  is `AList.lookup` and `len(m)` is the number of entries.
* Go's `int` is `Int`; lengths of maps are far below the overflow of a machine
  word, so no wrap-around is modelled.
* A Go `error` is the text that `err.Error()` gives.
* A function returning `(T, error)` returns `Except Error T`; a method that
  writes the store also returns the store after the call.
* `time.Time` values are seconds since the epoch, as `jwt.NumericDate` keeps them.
* Functions of other packages (`jwt`, `bcrypt`, `strconv`, `json`, `chi`) are
  fields of the structure `Lib`, a parameter of the functions that call them.
-/

namespace Myserver

/-! ## Data model (`db.go`) -/

/-- A Go `error`, kept as its message. -/
abbrev Error := String

deriving instance DecidableEq for Except

/-- A Go map, with keys of type `K` and values of type `V`. -/
abbrev GoMap (K V : Type) := AList (fun _ : K => V)

/-- The builtin `len` of a map. -/
def len {K V : Type} (m : GoMap K V) : Int := m.entries.length

structure Chirp where
  AuthorId : Int
  Body : String
  Id : Int
  deriving DecidableEq, Repr

structure User where
  Id : Int
  Password : String
  Email : String
  IsChirpyRed : Bool
  deriving DecidableEq, Repr

structure RefreshToken where
  Revoked : Bool
  Time : Int
  deriving DecidableEq, Repr

structure DBStructure where
  Chirps : GoMap Int Chirp
  Users : GoMap Int User
  Tokens : GoMap String RefreshToken

/-- The store. `file` is what reading the file at `path` and decoding it gives
(`os.ReadFile` followed by `json.Unmarshal`): a document, or the error of a
missing, unreadable or malformed file. `writeErr` is the error `os.WriteFile`
returns on this store, if it returns one. -/
structure DB where
  file : Except Error DBStructure
  writeErr : Option Error

def ErrNotExist : Error := "resource does not exist"

def ErrRevokedToken : Error := "revoked token"

/-- The zero values `User{}`, `Chirp{}` and the zero `time.Time`. -/
def User.zero : User := { Id := 0, Password := "", Email := "", IsChirpyRed := false }

def Chirp.zero : Chirp := { AuthorId := 0, Body := "", Id := 0 }

def zeroTime : Int := 0

/-- The document `createDB` writes: three empty maps. -/
def emptyDBStructure : DBStructure := { Chirps := ∅, Users := ∅, Tokens := ∅ }

/-! ## Store operations (`db.go`) -/

/-- `loadDB`: read the file under the read lock and decode it. -/
def loadDB (db : DB) : Except Error DBStructure := db.file

/-- `writeDB`: encode the document and replace the file under the write lock.
When `os.WriteFile` fails the file is taken to be as it was. -/
def writeDB (db : DB) (dbStructure : DBStructure) : Option Error × DB :=
  match db.writeErr with
  | some err => (some err, db)
  | none => (none, { db with file := .ok dbStructure })

/-- `hasEmail`: the first user, in the iteration order of the map, whose email
is `email`. -/
def hasEmail (dbs : DBStructure) (email : String) : Except Error User :=
  match dbs.Users.entries.find? (fun e => e.2.Email = email) with
  | some e => .ok e.2
  | none => .error ErrNotExist

def CreateUser (db : DB) (email password : String) : Except Error User × DB :=
  match loadDB db with
  | .error err => (.error err, db)
  | .ok dbs =>
    let id := len dbs.Users + 1
    match hasEmail dbs email with
    | .ok _ => (.error "email is already in user", db)
    | .error _ =>
      let user : User := { Email := email, Password := password, Id := id, IsChirpyRed := false }
      let dbs := { dbs with Users := dbs.Users.insert id user }
      match writeDB db dbs with
      | (some err, db) => (.error err, db)
      | (none, db) => (.ok user, db)

def UpdateUser (db : DB) (id : Int) (email password : String) : Except Error User × DB :=
  match loadDB db with
  | .error err => (.error err, db)
  | .ok dbs =>
    match dbs.Users.lookup id with
    | none => (.error ErrNotExist, db)
    | some user =>
      let user := { user with Email := email, Password := password }
      let dbs := { dbs with Users := dbs.Users.insert id user }
      match writeDB db dbs with
      | (some err, db) => (.error err, db)
      | (none, db) => (.ok user, db)

def UpgradeUser (db : DB) (id : Int) : Option Error × DB :=
  match loadDB db with
  | .error err => (some err, db)
  | .ok dbs =>
    match dbs.Users.lookup id with
    | none => (some ErrNotExist, db)
    | some user =>
      let user := { user with IsChirpyRed := true }
      let dbs := { dbs with Users := dbs.Users.insert id user }
      writeDB db dbs

def RemoveUser (db : DB) (id : Int) : Option Error × DB :=
  match loadDB db with
  | .error err => (some err, db)
  | .ok dbs =>
    let dbs := { dbs with Users := dbs.Users.erase id }
    writeDB db dbs

def GetUserFromId (db : DB) (id : Int) : Except Error User :=
  match loadDB db with
  | .error err => .error err
  | .ok dbs =>
    match dbs.Users.lookup id with
    | none => .error ErrNotExist
    | some user => .ok user

def GetUserFromEmail (db : DB) (email : String) : Except Error User :=
  match loadDB db with
  | .error err => .error err
  | .ok dbs => hasEmail dbs email

def CreateChirp (db : DB) (author : Int) (body : String) : Except Error Chirp × DB :=
  match loadDB db with
  | .error err => (.error err, db)
  | .ok dbs =>
    let id := len dbs.Chirps + 1
    let chirp : Chirp := { AuthorId := author, Body := body, Id := id }
    let dbs := { dbs with Chirps := dbs.Chirps.insert id chirp }
    match writeDB db dbs with
    | (some err, db) => (.error err, db)
    | (none, db) => (.ok chirp, db)

def GetChirp (db : DB) (id : Int) : Except Error Chirp :=
  match loadDB db with
  | .error err => .error err
  | .ok dbs =>
    match dbs.Chirps.lookup id with
    | none => .error ErrNotExist
    | some chirp => .ok chirp

/-- The slice write `out[chirp.Id - 1] = chirp` of `GetChirps`: `none` when the
index is out of range, where the program panics. -/
def setChirp (out : List Chirp) (chirp : Chirp) : Option (List Chirp) :=
  if 0 ≤ chirp.Id - 1 ∧ chirp.Id - 1 < out.length then
    some (out.set (chirp.Id - 1).toNat chirp)
  else none

/-- `GetChirps`: `none` when a slice write is out of range and the program
panics, otherwise what the function returns. The loop visits the entries of the
map in their order in the list. -/
def GetChirps (db : DB) : Option (Except Error (List Chirp)) :=
  match loadDB db with
  | .error err => some (.error err)
  | .ok dbs =>
    let out := List.replicate (len dbs.Chirps).toNat Chirp.zero
    match dbs.Chirps.entries.foldlM (fun out e => setChirp out e.2) out with
    | none => none
    | some out => some (.ok out)

def DeleteChirp (db : DB) (id : Int) : Option Error × DB :=
  match loadDB db with
  | .error err => (some err, db)
  | .ok dbs =>
    let dbs := { dbs with Chirps := dbs.Chirps.erase id }
    writeDB db dbs

def IsChirpAuthor (db : DB) (author id : Int) : Bool :=
  match GetChirp db id with
  | .error _ => false
  | .ok chirp => chirp.AuthorId == author

def AddToken (db : DB) (token : String) : Option Error × DB :=
  match loadDB db with
  | .error err => (some err, db)
  | .ok dbs =>
    let dbs := { dbs with Tokens := dbs.Tokens.insert token { Revoked := false, Time := zeroTime } }
    writeDB db dbs

/-- `RevokeToken`; `now` is the reading of `time.Now()`. -/
def RevokeToken (db : DB) (token : String) (now : Int) : Option Error × DB :=
  match loadDB db with
  | .error err => (some err, db)
  | .ok dbs =>
    let dbs := { dbs with Tokens := dbs.Tokens.insert token { Revoked := true, Time := now } }
    writeDB db dbs

def ValidToken (db : DB) (token : String) : Bool :=
  match loadDB db with
  | .error _ => false
  | .ok dbs =>
    match dbs.Tokens.lookup token with
    | none => true
    | some refreshToken =>
      if refreshToken.Revoked then false
      else true

/-- The store right after `NewDB` on a path with no file: `createDB` has
written the empty document. -/
def newDB : DB := { file := .ok emptyDBStructure, writeErr := none }

/-! ## Token service and bearer extraction (`auth.go`) -/

/-- The claims of `jwt.RegisteredClaims` that the program sets. -/
structure RegisteredClaims where
  Issuer : String
  Subject : String
  IssuedAt : Int
  ExpiresAt : Int
  deriving DecidableEq, Repr

/-- A `jwt.Token`: its signing method and its claims. -/
structure Token where
  Method : String
  Claims : RegisteredClaims
  deriving DecidableEq, Repr

/-- `RegisteredClaims.GetSubject` and `GetIssuer` of the `jwt` package: they
return the field and no error. -/
def RegisteredClaims.GetSubject (c : RegisteredClaims) : Except Error String := .ok c.Subject

def RegisteredClaims.GetIssuer (c : RegisteredClaims) : Except Error String := .ok c.Issuer

/-- `jwt.NewWithClaims`. -/
def NewWithClaims (method : String) (claims : RegisteredClaims) : Token :=
  { Method := method, Claims := claims }

def SigningMethodHS256 : String := "HS256"

/-- Seconds in `time.Hour`. -/
def Hour : Int := 3600

/-- The body of the login request, `parameters` in `loginPostHandler`. -/
structure LoginParameters where
  Password : String
  Email : String
  deriving DecidableEq, Repr

/-- The functions of other packages that the program calls. -/
structure Lib where
  /-- The call `jwt.ParseWithClaims(tokenString, &jwt.RegisteredClaims{}, keyfunc)`
  whose `keyfunc` returns `secret`, as a function of `tokenString` and `secret`:
  the token when the signature verifies and the token is not expired. -/
  ParseWithClaims : String → String → Except Error Token
  /-- The method `SignedString(key)` of a token. -/
  SignedString : Token → String → Except Error String
  /-- The call `bcrypt.CompareHashAndPassword(hash, password)`: `none` on a match. -/
  CompareHashAndPassword : String → String → Option Error
  /-- The functions `strconv.Atoi`, with the value it returns beside its error,
  and `strconv.Itoa`. -/
  Atoi : String → Int × Option Error
  Itoa : Int → String
  /-- Decoding of the JSON body of a login request. -/
  DecodeLogin : String → Except Error LoginParameters

/-- An `http.Header`, as its method `Get`. -/
abbrev Header := String → String

/-- `strings.Split(s, sep)` for a separator of one character, on the characters
of `s`; `cur` is the field being read. -/
def splitChars (sep : Char) (cur : List Char) : List Char → List (List Char)
  | [] => [cur]
  | c :: cs => if c = sep then cur :: splitChars sep [] cs else splitChars sep (cur ++ [c]) cs

def Split (s : String) (sep : Char) : List String :=
  (splitChars sep [] s.data).map String.mk

/-- `generateJWT`; `now₁` and `now₂` are its two readings of `time.Now().UTC()`.
The result is `none` where the source returns `nil`. -/
def generateJWT (tokenType id : String) (now₁ now₂ : Int) : Option Token :=
  if tokenType = "access" then
    some (NewWithClaims SigningMethodHS256
      { Issuer := "chirpy-access", IssuedAt := now₁, ExpiresAt := now₂ + Hour, Subject := id })
  else if tokenType = "refresh" then
    some (NewWithClaims SigningMethodHS256
      { Issuer := "chirpy-refresh", IssuedAt := now₁, ExpiresAt := now₂ + (60 * 24) * Hour,
        Subject := id })
  else none

/-- `validateJWT`; `db` is `cfg.db`. -/
def validateJWT (lib : Lib) (db : DB) (tokenString tokenType secret : String) :
    Except Error String :=
  match lib.ParseWithClaims tokenString secret with
  | .error err => .error err
  | .ok token =>
    match token.Claims.GetSubject with
    | .error err => .error err
    | .ok id =>
      match token.Claims.GetIssuer with
      | .error err => .error err
      | .ok issuer =>
        if issuer ≠ "chirpy-" ++ tokenType then .error "invalid token type"
        else if tokenType = "refresh" ∧ ¬ ValidToken db tokenString then .error ErrRevokedToken
        else .ok id

/-- `GetBearerToken`. The two indexings are in range where they are evaluated:
`strings.Split` returns at least one field, and `splitAuth[1]` is read after
the length test. -/
def GetBearerToken (headers : Header) : Except Error String :=
  let authHeader := headers "Authorization"
  if authHeader = "" then .error "Authorization header not included"
  else
    let splitAuth := Split authHeader ' '
    if splitAuth.length < 2 ∨ splitAuth.getD 0 "" ≠ "Bearer" then
      .error "malformed authorization header"
    else .ok (splitAuth.getD 1 "")

/-! ## Handlers (`apihandlers.go`, `auth.go`, `chirps.go`) -/

structure apiConfig where
  fileserverHits : Int
  db : DB
  jwtSecret : String
  polkaKey : String

/-- The parts of an `http.Request` the handlers read: the headers, the URL
parameters as `chi.URLParam` gives them, and the body. -/
structure Request where
  Header : Header
  URLParam : String → String
  Body : String

/-- The payloads the handlers below encode as the JSON body of a response. -/
inductive Payload where
  | errorResponse (Error : String)
  | empty
  | login (Id : Int) (Email : String) (IsChirpyRed : Bool) (Token RefreshToken : String)
  deriving DecidableEq, Repr

structure Response where
  code : Int
  payload : Payload
  deriving DecidableEq, Repr

/-- An `http.ResponseWriter`: the responses written to it, in order. -/
abbrev ResponseWriter := List Response

def StatusOK : Int := 200

def StatusUnauthorized : Int := 401

def StatusForbidden : Int := 403

def StatusInternalServerError : Int := 500

/-- `respondWithJSON`: the payloads here always encode, so the status written
is `code`. -/
def respondWithJSON (w : ResponseWriter) (code : Int) (payload : Payload) : ResponseWriter :=
  w ++ [{ code := code, payload := payload }]

def respondWithError (w : ResponseWriter) (code : Int) (msg : String) : ResponseWriter :=
  respondWithJSON w code (.errorResponse msg)

/-- `decodeParameters[parameters]` in `loginPostHandler`. -/
def decodeParameters (lib : Lib) (r : Request) : Except Error LoginParameters :=
  lib.DecodeLogin r.Body

/-- `loginPostHandler`; `clock n` is the reading of the `n`-th call of
`time.Now()`. Returns what was written to `w` and the store after the call. -/
def loginPostHandler (lib : Lib) (cfg : apiConfig) (clock : Nat → Int) (w : ResponseWriter)
    (r : Request) : ResponseWriter × DB :=
  match decodeParameters lib r with
  | .error _ => (respondWithError w StatusInternalServerError "Couldn't decode parameters", cfg.db)
  | .ok params =>
    match GetUserFromEmail cfg.db params.Email with
    | .error err => (respondWithError w StatusInternalServerError err, cfg.db)
    | .ok user =>
      match lib.CompareHashAndPassword user.Password params.Password with
      | some _ => (respondWithError w StatusUnauthorized "passwords don't match", cfg.db)
      | none =>
        let idStr := lib.Itoa user.Id
        match generateJWT "access" idStr (clock 0) (clock 1),
            generateJWT "refresh" idStr (clock 2) (clock 3) with
        | some jwtAccessToken, some jwtRefreshToken =>
          match lib.SignedString jwtAccessToken cfg.jwtSecret with
          | .error err => (respondWithError w StatusInternalServerError err, cfg.db)
          | .ok accessToken =>
            match lib.SignedString jwtRefreshToken cfg.jwtSecret with
            | .error err => (respondWithError w StatusInternalServerError err, cfg.db)
            | .ok refreshToken =>
              let db := (AddToken cfg.db refreshToken).2
              (respondWithJSON w StatusOK
                (.login user.Id user.Email user.IsChirpyRed accessToken refreshToken), db)
        -- a nil token: not reached, both token types are the literals above
        | _, _ => (w, cfg.db)

/-- `chirpDeleteIdHandler`. When the `id` of the URL does not parse, the source
writes an error and goes on with the value `strconv.Atoi` returned. -/
def chirpDeleteIdHandler (lib : Lib) (cfg : apiConfig) (w : ResponseWriter) (r : Request) :
    ResponseWriter × DB :=
  match GetBearerToken r.Header with
  | .error err => (respondWithError w StatusUnauthorized err, cfg.db)
  | .ok tok =>
    match validateJWT lib cfg.db tok "access" cfg.jwtSecret with
    | .error err => (respondWithError w StatusUnauthorized err, cfg.db)
    | .ok idStr =>
      match lib.Atoi idStr with
      | (_, some err) => (respondWithError w StatusInternalServerError err, cfg.db)
      | (authorId, none) =>
        let id := (lib.Atoi (r.URLParam "id")).1
        let w := match (lib.Atoi (r.URLParam "id")).2 with
          | some _ => respondWithError w StatusInternalServerError "Couldn't decode parameters"
          | none => w
        if ¬ IsChirpAuthor cfg.db authorId id then
          (respondWithError w StatusForbidden "Not author of chirp", cfg.db)
        else
          match DeleteChirp cfg.db id with
          | (some err, db) => (respondWithError w StatusInternalServerError err, db)
          | (none, db) => (respondWithJSON w StatusOK .empty, db)

/-! ## Sequences of store operations -/

/-- A call of one of the mutating methods of the store. -/
inductive Op where
  | CreateUser (email password : String)
  | UpdateUser (id : Int) (email password : String)
  | UpgradeUser (id : Int)
  | RemoveUser (id : Int)
  | CreateChirp (author : Int) (body : String)
  | DeleteChirp (id : Int)
  | AddToken (token : String)
  | RevokeToken (token : String) (now : Int)
  deriving DecidableEq, Repr

/-- The error of a result, if it is one. -/
def errOf {α : Type} : Except Error α → Option Error
  | .error err => some err
  | .ok _ => none

/-- Run one call: the error it returned, if any, and the store after it. -/
def Op.run (db : DB) : Op → Option Error × DB
  | .CreateUser email password => ((Myserver.CreateUser db email password).map errOf id)
  | .UpdateUser i email password => ((Myserver.UpdateUser db i email password).map errOf id)
  | .UpgradeUser i => Myserver.UpgradeUser db i
  | .RemoveUser i => Myserver.RemoveUser db i
  | .CreateChirp author body => ((Myserver.CreateChirp db author body).map errOf id)
  | .DeleteChirp i => Myserver.DeleteChirp db i
  | .AddToken token => Myserver.AddToken db token
  | .RevokeToken token now => Myserver.RevokeToken db token now

/-- Run a sequence of calls one after the other; `none` as soon as one of
them returns an error, otherwise the store after the last. -/
def runOps (db : DB) : List Op → Option DB
  | [] => some db
  | op :: ops =>
    match op.run db with
    | (some _, _) => none
    | (none, db) => runOps db ops

/-- The document a call writes back, as a function of the document it loaded;
`none` when the call returns an error before its write. -/
def Op.docAfter (dbs : DBStructure) : Op → Option DBStructure
  | .CreateUser email password =>
    match hasEmail dbs email with
    | .ok _ => none
    | .error _ =>
      let id := len dbs.Users + 1
      let user : User := { Email := email, Password := password, Id := id, IsChirpyRed := false }
      some { dbs with Users := dbs.Users.insert id user }
  | .UpdateUser i email password =>
    match dbs.Users.lookup i with
    | none => none
    | some user =>
      some { dbs with Users := dbs.Users.insert i { user with Email := email, Password := password } }
  | .UpgradeUser i =>
    match dbs.Users.lookup i with
    | none => none
    | some user => some { dbs with Users := dbs.Users.insert i { user with IsChirpyRed := true } }
  | .RemoveUser i => some { dbs with Users := dbs.Users.erase i }
  | .CreateChirp author body =>
    let id := len dbs.Chirps + 1
    let chirp : Chirp := { AuthorId := author, Body := body, Id := id }
    some { dbs with Chirps := dbs.Chirps.insert id chirp }
  | .DeleteChirp i => some { dbs with Chirps := dbs.Chirps.erase i }
  | .AddToken token =>
    some { dbs with Tokens := dbs.Tokens.insert token { Revoked := false, Time := zeroTime } }
  | .RevokeToken token now =>
    some { dbs with Tokens := dbs.Tokens.insert token { Revoked := true, Time := now } }

/-- The record of `t` is revoked in the document. -/
def RevokedIn (dbs : DBStructure) (t : String) : Prop :=
  ∃ r, dbs.Tokens.lookup t = some r ∧ r.Revoked = true

/-- The entries of a chirp map that only `CreateChirp` has written: the keys
count down from the number of entries to 1 and each chirp carries its key as
its id. -/
def CountsDown : List (Sigma fun _ : Int => Chirp) → Prop
  | [] => True
  | e :: l => e.1 = (l.length : Int) + 1 ∧ e.2.Id = e.1 ∧ CountsDown l

/-! ## Concurrent calls of `AddToken` and `RevokeToken`

`loadDB` holds the read lock for the time of its read and `writeDB` holds the
write lock for the time of its write; nothing is held between the two. A
goroutine running `AddToken` or `RevokeToken` therefore takes two atomic steps
on the store, and steps of different goroutines interleave. -/

/-- Where a goroutine running `AddToken` or `RevokeToken` stands: before its
`loadDB`, between `loadDB` and `writeDB` with the document it loaded, or
returned with its error. -/
inductive Goroutine where
  | atLoad (op : Op)
  | atWrite (op : Op) (dbs : DBStructure)
  | returned (err : Option Error)

/-- The in-memory mutation of `AddToken` and `RevokeToken` between their load and their
write. -/
def mutate (dbs : DBStructure) : Op → DBStructure
  | .AddToken token =>
    { dbs with Tokens := dbs.Tokens.insert token { Revoked := false, Time := zeroTime } }
  | .RevokeToken token now =>
    { dbs with Tokens := dbs.Tokens.insert token { Revoked := true, Time := now } }
  | _ => dbs

/-- One atomic step of a goroutine on the store. -/
def Goroutine.step (db : DB) : Goroutine → Goroutine × DB
  | .atLoad op =>
    match loadDB db with
    | .error err => (.returned (some err), db)
    | .ok dbs => (.atWrite op dbs, db)
  | .atWrite op dbs =>
    match writeDB db (mutate dbs op) with
    | (err, db) => (.returned err, db)
  | .returned err => (.returned err, db)

/-- Run the goroutines `gs` under a schedule: each entry of the schedule names
the goroutine that takes the next step. -/
def runSchedule (db : DB) (gs : List Goroutine) : List Nat → List Goroutine × DB
  | [] => (gs, db)
  | i :: schedule =>
    match gs.get? i with
    | none => runSchedule db gs schedule
    | some g =>
      match g.step db with
      | (g, db) => runSchedule db (gs.set i g) schedule

/-- Whether the goroutine has returned without error. -/
def Goroutine.succeeded : Goroutine → Bool
  | .returned none => true
  | _ => false

/-- The token records of the store, with their keys. -/
def tokenRecords (db : DB) : List (String × RefreshToken) :=
  match loadDB db with
  | .error _ => []
  | .ok dbs => dbs.Tokens.entries.map (fun e => (e.1, e.2))

/-- Two goroutines call `AddToken` on the new store, on the token strings "t1"
and "t2", and both load before either writes. -/
def interleavedAdds : List Goroutine × DB :=
  runSchedule newDB [.atLoad (.AddToken "t1"), .atLoad (.AddToken "t2")] [0, 1, 0, 1]

/-- After `interleavedAdds`, two goroutines call `RevokeToken` on "t1" and "t2",
and again both load before either writes. -/
def interleavedRevokes : List Goroutine × DB :=
  runSchedule interleavedAdds.2
    [.atLoad (.RevokeToken "t1" 5), .atLoad (.RevokeToken "t2" 6)] [0, 1, 0, 1]

/-- The headers of a request whose only header is `Authorization: h`. -/
def headerOf (h : String) : Header := fun key => if key = "Authorization" then h else ""

/-! ## A concrete instance of the library functions

Used to evaluate the handlers and the token service on concrete requests. The
token strings "A7", "A8" and "R7" stand for a signed access token of user 7,
one of user 8 and a signed refresh token of user 7. -/

def demoLib : Lib where
  ParseWithClaims := fun tokenString _ =>
    if tokenString = "A7" then
      .ok (NewWithClaims SigningMethodHS256
        { Issuer := "chirpy-access", Subject := "7", IssuedAt := 0, ExpiresAt := Hour })
    else if tokenString = "A8" then
      .ok (NewWithClaims SigningMethodHS256
        { Issuer := "chirpy-access", Subject := "8", IssuedAt := 0, ExpiresAt := Hour })
    else if tokenString = "R7" then
      .ok (NewWithClaims SigningMethodHS256
        { Issuer := "chirpy-refresh", Subject := "7", IssuedAt := 0,
          ExpiresAt := (60 * 24) * Hour })
    else .error "token is malformed"
  SignedString := fun token _ =>
    .ok ((if token.Claims.Issuer = "chirpy-access" then "A" else "R") ++ token.Claims.Subject)
  CompareHashAndPassword := fun hash password =>
    if hash = "hash of " ++ password then none
    else some "crypto/bcrypt: hashedPassword is not the hash of the given password"
  Atoi := fun s =>
    if s = "1" then (1, none) else if s = "7" then (7, none) else if s = "8" then (8, none)
    else (0, some "strconv.Atoi: invalid syntax")
  Itoa := fun n => if n = 1 then "1" else if n = 7 then "7" else if n = 8 then "8" else "0"
  DecodeLogin := fun body =>
    match Split body ' ' with
    | [email, password] => .ok { Email := email, Password := password }
    | _ => .error "unexpected end of JSON input"

/-- A request with the header `Authorization: authorization`, the URL
parameter `id` and the body `body`. -/
def demoRequest (authorization id body : String) : Request where
  Header := headerOf authorization
  URLParam := fun key => if key = "id" then id else ""
  Body := body

def demoConfig (db : DB) : apiConfig :=
  { fileserverHits := 0, db := db, jwtSecret := "secret", polkaKey := "key" }

end Myserver

namespace Myserver

/-! ## Lemmas on the store -/

theorem ValidToken_eq_false_iff (db : DB) (dbs : DBStructure) (token : String)
    (hload : loadDB db = .ok dbs) :
    ValidToken db token = false ↔
      ∃ r, dbs.Tokens.lookup token = some r ∧ r.Revoked = true := by
  unfold ValidToken
  rw [hload]
  cases h : dbs.Tokens.lookup token with
  | none => simp [h]
  | some r => cases hr : r.Revoked <;> simp [h, hr]

theorem run_success (db db' : DB) (op : Op) (h : op.run db = (none, db')) :
    ∃ dbs dbs', loadDB db = .ok dbs ∧ op.docAfter dbs = some dbs' ∧ loadDB db' = .ok dbs' ∧
      db'.writeErr = db.writeErr := by
  obtain ⟨file, werr⟩ := db
  cases file with
  | error e => cases op <;> simp [Op.run, CreateUser, UpdateUser, UpgradeUser, RemoveUser,
      CreateChirp, DeleteChirp, AddToken, RevokeToken, loadDB, errOf] at h
  | ok dbs =>
    refine ⟨dbs, ?_⟩
    cases werr with
    | some e =>
      cases op <;> simp [Op.run, CreateUser, UpdateUser, UpgradeUser, RemoveUser,
        CreateChirp, DeleteChirp, AddToken, RevokeToken, loadDB, writeDB, errOf] at h <;>
        (split at h <;> simp [errOf] at h)
    | none =>
      cases op <;> simp [Op.run, CreateUser, UpdateUser, UpgradeUser, RemoveUser,
        CreateChirp, DeleteChirp, AddToken, RevokeToken, loadDB, writeDB, errOf] at h <;>
        (try split at h) <;> (try simp [errOf] at h) <;> subst h <;>
        simp [loadDB, Op.docAfter, *]

theorem docAfter_keeps_record (dbs dbs' : DBStructure) (op : Op) (t : String)
    (h : op.docAfter dbs = some dbs') (hrec : (dbs.Tokens.lookup t).isSome) :
    (dbs'.Tokens.lookup t).isSome := by
  cases op <;> simp only [Op.docAfter] at h <;> (try split at h) <;>
    simp only [Option.some.injEq, reduceCtorEq] at h <;> subst h <;> try exact hrec
  · rename_i token
    by_cases ht : t = token
    · subst ht; simp [AList.lookup_insert]
    · simpa [AList.lookup_insert_ne ht] using hrec
  · rename_i token now
    by_cases ht : t = token
    · subst ht; simp [AList.lookup_insert]
    · simpa [AList.lookup_insert_ne ht] using hrec

theorem docAfter_keeps_revoked (dbs dbs' : DBStructure) (op : Op) (t : String)
    (h : op.docAfter dbs = some dbs') (hne : op ≠ .AddToken t) (hrev : RevokedIn dbs t) :
    RevokedIn dbs' t := by
  cases op <;> simp only [Op.docAfter] at h <;> (try split at h) <;>
    simp only [Option.some.injEq, reduceCtorEq] at h <;> subst h <;> try exact hrev
  · rename_i token
    have ht : t ≠ token := fun e => hne (by rw [e])
    obtain ⟨r, hr, hrr⟩ := hrev
    exact ⟨r, by simpa [AList.lookup_insert_ne ht] using hr, hrr⟩
  · rename_i token now
    by_cases ht : t = token
    · subst ht; exact ⟨_, AList.lookup_insert _, rfl⟩
    · obtain ⟨r, hr, hrr⟩ := hrev
      exact ⟨r, by simpa [AList.lookup_insert_ne ht] using hr, hrr⟩

/-- A property of the document that every allowed call preserves holds after
every sequence of allowed calls that all succeed. -/
theorem runOps_preserves (P : DBStructure → Prop) (allowed : Op → Prop)
    (hstep : ∀ dbs dbs' op, allowed op → op.docAfter dbs = some dbs' → P dbs → P dbs')
    (ops : List Op) : ∀ (db db' : DB) (dbs : DBStructure), loadDB db = .ok dbs → P dbs →
      (∀ op ∈ ops, allowed op) → runOps db ops = some db' →
      ∃ dbs', loadDB db' = .ok dbs' ∧ P dbs' := by
  induction ops with
  | nil =>
    intro db db' dbs hload hP _ hrun
    simp only [runOps, Option.some.injEq] at hrun
    subst hrun
    exact ⟨dbs, hload, hP⟩
  | cons op ops ih =>
    intro db db' dbs hload hP hall hrun
    simp only [runOps] at hrun
    cases hop : op.run db with
    | mk err db₁ =>
      rw [hop] at hrun
      cases err with
      | some e => simp at hrun
      | none =>
        simp only at hrun
        obtain ⟨dbs₀, dbs₁, hl₀, hdoc, hl₁, _⟩ := run_success db db₁ op hop
        rw [hload] at hl₀
        cases hl₀
        exact ih db₁ db' dbs₁ hl₁
          (hstep dbs dbs₁ op (hall op (List.mem_cons_self _ _)) hdoc hP)
          (fun o ho => hall o (List.mem_cons_of_mem _ ho)) hrun

/-! ## Token verification -/

/-- C1: a token that parses under the secret with the claims `generateJWT k id`
builds, on a store whose document holds no revoked record for it, verifies as
`id` when the expected kind is `k` and fails with "invalid token type" when the
expected kind is the other one. -/
theorem validateJWT_generateJWT (lib : Lib) (db : DB) (dbs : DBStructure)
    (token secret id k k' : String) (now₁ now₂ : Int) (tok : Token)
    (hk : k = "access" ∨ k = "refresh") (hk' : k' = "access" ∨ k' = "refresh")
    (hparse : lib.ParseWithClaims token secret = .ok tok)
    (hclaims : (generateJWT k id now₁ now₂).map Token.Claims = some tok.Claims)
    (hload : loadDB db = .ok dbs)
    (hrev : ∀ r, dbs.Tokens.lookup token = some r → r.Revoked = false) :
    validateJWT lib db token k' secret =
      if k = k' then .ok id else .error "invalid token type" := by
  have hvalid : ValidToken db token = true := by
    cases hv : ValidToken db token with
    | true => rfl
    | false =>
      obtain ⟨r, hr, hrr⟩ := (ValidToken_eq_false_iff db dbs token hload).1 hv
      rw [hrev r hr] at hrr
      cases hrr
  rcases hk with rfl | rfl <;> rcases hk' with rfl | rfl <;>
    simp [generateJWT, NewWithClaims] at hclaims <;>
    simp [validateJWT, hparse, RegisteredClaims.GetSubject, RegisteredClaims.GetIssuer,
      ← hclaims, hvalid]

theorem validateJWT_generateJWT_witness :
    validateJWT demoLib newDB "A7" "access" "secret" = .ok "7" ∧
    validateJWT demoLib newDB "R7" "access" "secret" = .error "invalid token type" :=
  ⟨validateJWT_generateJWT demoLib newDB emptyDBStructure "A7" "secret" "7" "access" "access"
      0 0 _ (Or.inl rfl) (Or.inl rfl) rfl rfl rfl (by intro r h; cases h),
   validateJWT_generateJWT demoLib newDB emptyDBStructure "R7" "secret" "7" "refresh" "access"
      0 0 _ (Or.inr rfl) (Or.inl rfl) rfl rfl rfl (by intro r h; cases h)⟩

/-- C2: on a store whose document loads, a correctly signed, unexpired token
with issuer "chirpy-refresh" fails verification as a refresh token with
`ErrRevokedToken` exactly when the token map has a record for it with `Revoked`
set; a token without any record is valid for `ValidToken` and its subject is
returned. -/
theorem validateJWT_refresh_revoked_iff (lib : Lib) (db : DB) (dbs : DBStructure)
    (t secret : String) (tok : Token)
    (hload : loadDB db = .ok dbs)
    (hparse : lib.ParseWithClaims t secret = .ok tok)
    (hissuer : tok.Claims.Issuer = "chirpy-refresh") :
    (validateJWT lib db t "refresh" secret = .error ErrRevokedToken ↔
      ∃ r, dbs.Tokens.lookup t = some r ∧ r.Revoked = true) ∧
    ((¬ ∃ r, dbs.Tokens.lookup t = some r ∧ r.Revoked = true) →
      validateJWT lib db t "refresh" secret = .ok tok.Claims.Subject) ∧
    (dbs.Tokens.lookup t = none →
      ValidToken db t = true ∧
      validateJWT lib db t "refresh" secret = .ok tok.Claims.Subject) := by
  have hiff := ValidToken_eq_false_iff db dbs t hload
  have hconcat : "chirpy-" ++ "refresh" = "chirpy-refresh" := by decide
  have hval : validateJWT lib db t "refresh" secret =
      if ValidToken db t = true then .ok tok.Claims.Subject else .error ErrRevokedToken := by
    simp [validateJWT, hparse, RegisteredClaims.GetSubject, RegisteredClaims.GetIssuer,
      hissuer, hconcat]
    cases ValidToken db t <;> simp
  cases hv : ValidToken db t with
  | true =>
    have hno : ¬ ∃ r, dbs.Tokens.lookup t = some r ∧ r.Revoked = true := by
      intro h
      have := hiff.2 h
      rw [hv] at this
      cases this
    rw [hv, if_pos rfl] at hval
    rw [hval]
    exact ⟨⟨fun h => (by cases h), fun h => absurd h hno⟩, fun _ => rfl, fun _ => ⟨rfl, rfl⟩⟩
  | false =>
    have hyes := hiff.1 hv
    rw [hv, if_neg (by decide)] at hval
    rw [hval]
    refine ⟨⟨fun _ => hyes, fun _ => rfl⟩, fun h => absurd hyes h, fun h => ?_⟩
    obtain ⟨r, hr, _⟩ := hyes
    rw [h] at hr
    cases hr

theorem validateJWT_refresh_revoked_iff_witness :
    validateJWT demoLib (RevokeToken newDB "R7" 5).2 "R7" "refresh" "secret"
      = .error ErrRevokedToken ∧
    ValidToken newDB "R7" = true ∧
    validateJWT demoLib newDB "R7" "refresh" "secret" = .ok "7" :=
  ⟨(validateJWT_refresh_revoked_iff demoLib (RevokeToken newDB "R7" 5).2
      (mutate emptyDBStructure (.RevokeToken "R7" 5)) "R7" "secret" _ rfl rfl rfl).1.2
      ⟨{ Revoked := true, Time := 5 }, by decide, rfl⟩,
   (validateJWT_refresh_revoked_iff demoLib newDB emptyDBStructure "R7" "secret" _
      rfl rfl rfl).2.2 rfl⟩

/-! ## Revocation -/

/-- C3 (counterexample): on the new store `RevokeToken "t"` succeeds and makes
`ValidToken "t"` false, and the successful call `AddToken "t"` that follows
makes `ValidToken "t"` true again. -/
theorem revoked_token_valid_after_AddToken :
    (RevokeToken newDB "t" 5).1 = none ∧
    ValidToken (RevokeToken newDB "t" 5).2 "t" = false ∧
    (runOps (RevokeToken newDB "t" 5).2 [.AddToken "t"]).map (fun db => ValidToken db "t")
      = some true := by
  decide

/-- C3 (amended): after `RevokeToken t` succeeds, every sequence of successful
store operations leaves a record for `t` in the token map, and when none of
them is `AddToken t` the record is still revoked and `ValidToken t` is false. -/
theorem revoked_stays_revoked (db db₁ db₂ : DB) (t : String) (now : Int) (ops : List Op)
    (hrevoke : RevokeToken db t now = (none, db₁))
    (hops : runOps db₁ ops = some db₂) :
    (∃ dbs, loadDB db₂ = .ok dbs ∧ (dbs.Tokens.lookup t).isSome) ∧
    ((∀ op ∈ ops, op ≠ .AddToken t) →
      ValidToken db₂ t = false ∧ ∃ dbs, loadDB db₂ = .ok dbs ∧ RevokedIn dbs t) := by
  obtain ⟨dbs, dbs₁, _, hdoc, hload₁, _⟩ := run_success db db₁ (.RevokeToken t now) hrevoke
  simp only [Op.docAfter, Option.some.injEq] at hdoc
  have hrev₁ : RevokedIn dbs₁ t := by
    subst hdoc
    exact ⟨_, AList.lookup_insert _, rfl⟩
  have hrec₁ : (dbs₁.Tokens.lookup t).isSome := by
    obtain ⟨r, hr, _⟩ := hrev₁
    simp [hr]
  refine ⟨?_, fun hno => ?_⟩
  · exact runOps_preserves (fun d => (d.Tokens.lookup t).isSome) (fun _ => True)
      (fun d d' op _ h hP => docAfter_keeps_record d d' op t h hP)
      ops db₁ db₂ dbs₁ hload₁ hrec₁ (fun _ _ => trivial) hops
  · obtain ⟨dbs₂, hload₂, hrev₂⟩ :=
      runOps_preserves (fun d => RevokedIn d t) (fun op => op ≠ .AddToken t)
        (fun d d' op hop h hP => docAfter_keeps_revoked d d' op t h hop hP)
        ops db₁ db₂ dbs₁ hload₁ hrev₁ hno hops
    exact ⟨(ValidToken_eq_false_iff db₂ dbs₂ t hload₂).2 hrev₂, dbs₂, hload₂, hrev₂⟩

theorem revoked_stays_revoked_witness :
    (∃ dbs, loadDB (CreateChirp (AddToken (RevokeToken newDB "t" 5).2 "u").2 7 "hi").2 = .ok dbs ∧
      (dbs.Tokens.lookup "t").isSome) ∧
    ((∀ op ∈ [Op.AddToken "u", Op.CreateChirp 7 "hi"], op ≠ .AddToken "t") →
      ValidToken (CreateChirp (AddToken (RevokeToken newDB "t" 5).2 "u").2 7 "hi").2 "t" = false ∧
      ∃ dbs, loadDB (CreateChirp (AddToken (RevokeToken newDB "t" 5).2 "u").2 7 "hi").2 = .ok dbs ∧
        RevokedIn dbs "t") :=
  revoked_stays_revoked newDB (RevokeToken newDB "t" 5).2
    (CreateChirp (AddToken (RevokeToken newDB "t" 5).2 "u").2 7 "hi").2 "t" 5
    [.AddToken "u", .CreateChirp 7 "hi"] rfl rfl

/-! ## Bearer extraction -/

theorem splitChars_no_sep (sep : Char) (t : List Char) (hsep : sep ∉ t) :
    ∀ cur, splitChars sep cur t = [cur ++ t] := by
  induction t with
  | nil => intro cur; simp [splitChars]
  | cons c cs ih =>
    intro cur
    have hc : c ≠ sep := fun e => hsep (by simp [e])
    have hcs : sep ∉ cs := fun h => hsep (List.mem_cons_of_mem _ h)
    simp [splitChars, hc, ih hcs]

theorem splitChars_append_sep (sep : Char) (a b : List Char) (hsep : sep ∉ a) :
    ∀ cur, splitChars sep cur (a ++ sep :: b) = (cur ++ a) :: splitChars sep [] b := by
  induction a with
  | nil => intro cur; simp [splitChars]
  | cons c cs ih =>
    intro cur
    have hc : c ≠ sep := fun e => hsep (by simp [e])
    have hcs : sep ∉ cs := fun h => hsep (List.mem_cons_of_mem _ h)
    simp [splitChars, hc, ih hcs]

theorem Split_no_sep (s : String) (sep : Char) (hsep : sep ∉ s.data) : Split s sep = [s] := by
  simp [Split, splitChars_no_sep sep s.data hsep]

theorem Split_ne_nil (s : String) (sep : Char) : Split s sep ≠ [] := by
  have h : ∀ (t cur : List Char), splitChars sep cur t ≠ [] := by
    intro t
    induction t with
    | nil => intro cur; simp [splitChars]
    | cons c cs ih =>
      intro cur
      by_cases hc : c = sep <;> simp [splitChars, hc, ih]
  simpa [Split] using h s.data []

theorem Split_Bearer (t : String) (hsep : ' ' ∉ t.data) :
    Split ("Bearer " ++ t) ' ' = ["Bearer", t] := by
  have hdata : ("Bearer " ++ t).data = ['B', 'e', 'a', 'r', 'e', 'r'] ++ ' ' :: t.data := by
    rw [String.data_append]; rfl
  have hB : ' ' ∉ ['B', 'e', 'a', 'r', 'e', 'r'] := by decide
  simp only [Split, hdata, splitChars_append_sep ' ' _ _ hB, splitChars_no_sep ' ' _ hsep]
  rfl

/-- C4 (counterexample): the header "Bearer a b" splits into three fields and
`GetBearerToken` returns the token "a" without error. -/
theorem GetBearerToken_accepts_three_fields :
    (Split "Bearer a b" ' ').length = 3 ∧
    GetBearerToken (headerOf "Bearer a b") = .ok "a" := by
  decide

/-- C4 (amended): `GetBearerToken` returns a token without error exactly when
splitting the header on single spaces gives at least two fields of which the
first is "Bearer", and the token is the second field; every other header value
yields the missing-header or the malformed-header error. -/
theorem GetBearerToken_ok_iff (headers : Header) :
    (∀ token, GetBearerToken headers = .ok token ↔
      ∃ rest, Split (headers "Authorization") ' ' = "Bearer" :: token :: rest) ∧
    ((¬ ∃ token rest, Split (headers "Authorization") ' ' = "Bearer" :: token :: rest) →
      GetBearerToken headers = .error "Authorization header not included" ∨
      GetBearerToken headers = .error "malformed authorization header") := by
  by_cases hempty : headers "Authorization" = ""
  · have hsplit : Split (headers "Authorization") ' ' = [""] := by rw [hempty]; rfl
    have hget : GetBearerToken headers = .error "Authorization header not included" := by
      simp [GetBearerToken, hempty]
    rw [hget, hsplit]
    exact ⟨fun token => ⟨fun h => (by cases h), fun ⟨_, h⟩ => (by simp at h)⟩, fun _ => Or.inl rfl⟩
  · have hne := Split_ne_nil (headers "Authorization") ' '
    match hsplit : Split (headers "Authorization") ' ' with
    | [] => exact absurd hsplit hne
    | [f] =>
      have hget : GetBearerToken headers = .error "malformed authorization header" := by
        simp [GetBearerToken, hempty, hsplit]
      rw [hget]
      exact ⟨fun token => ⟨fun h => (by cases h), fun ⟨_, h⟩ => (by simp at h)⟩, fun _ => Or.inr rfl⟩
    | f :: g :: rest =>
      by_cases hf : f = "Bearer"
      · have hget : GetBearerToken headers = .ok g := by
          simp [GetBearerToken, hempty, hsplit, hf]
        rw [hget]
        subst hf
        refine ⟨fun token => ⟨fun h => ?_, fun ⟨_, h⟩ => ?_⟩, fun h => absurd ⟨g, rest, rfl⟩ h⟩
        · cases h; exact ⟨rest, rfl⟩
        · cases h; rfl
      · have hget : GetBearerToken headers = .error "malformed authorization header" := by
          simp [GetBearerToken, hempty, hsplit, hf]
        rw [hget]
        refine ⟨fun token => ⟨fun h => (by cases h), fun ⟨_, h⟩ => ?_⟩, fun _ => Or.inr rfl⟩
        cases h
        exact absurd rfl hf

theorem GetBearerToken_ok_iff_witness :
    GetBearerToken (headerOf "Bearer abc123 tail") = .ok "abc123" ∧
    (GetBearerToken (headerOf "Basic xyz") = .error "Authorization header not included" ∨
      GetBearerToken (headerOf "Basic xyz") = .error "malformed authorization header") :=
  ⟨((GetBearerToken_ok_iff (headerOf "Bearer abc123 tail")).1 "abc123").2 ⟨["tail"], by decide⟩,
   (GetBearerToken_ok_iff (headerOf "Basic xyz")).2 (by
      rintro ⟨token, rest, h⟩
      have h' : Split "Basic xyz" ' ' = "Bearer" :: token :: rest := h
      have e : Split "Basic xyz" ' ' = ["Basic", "xyz"] := by decide
      rw [e] at h'
      have := (List.cons.inj h').1
      exact absurd this (by decide))⟩

/-- C5: on the header "Bearer " ++ t, with t non-empty and without a space,
`GetBearerToken` returns t; on the empty header it returns the error
"Authorization header not included"; on a non-empty header without a space, or
whose first space-separated field is not "Bearer", it returns the error
"malformed authorization header". -/
theorem GetBearerToken_forms (headers : Header) :
    (∀ t : String, t ≠ "" → ' ' ∉ t.data → headers "Authorization" = "Bearer " ++ t →
      GetBearerToken headers = .ok t) ∧
    (headers "Authorization" = "" →
      GetBearerToken headers = .error "Authorization header not included") ∧
    (headers "Authorization" ≠ "" → ' ' ∉ (headers "Authorization").data →
      GetBearerToken headers = .error "malformed authorization header") ∧
    (headers "Authorization" ≠ "" →
      (Split (headers "Authorization") ' ').head? ≠ some "Bearer" →
      GetBearerToken headers = .error "malformed authorization header") := by
  refine ⟨fun t _ hsp hh => ?_, fun hh => ?_, fun hne hsp => ?_, fun hne hhead => ?_⟩
  · have hne : "Bearer " ++ t ≠ "" := by
      intro e
      have := congrArg String.data e
      rw [String.data_append] at this
      exact absurd this (by simp [String.data])
    simp [GetBearerToken, hh, hne, Split_Bearer t hsp]
  · simp [GetBearerToken, hh]
  · simp [GetBearerToken, hne, Split_no_sep _ _ hsp]
  · match hsplit : Split (headers "Authorization") ' ' with
    | [] => exact absurd hsplit (Split_ne_nil _ _)
    | f :: rest =>
      rw [hsplit] at hhead
      have hf : f ≠ "Bearer" := fun e => hhead (by simp [e])
      simp [GetBearerToken, hne, hsplit, hf]

theorem GetBearerToken_forms_witness :
    GetBearerToken (headerOf "Bearer abc123") = .ok "abc123" ∧
    GetBearerToken (headerOf "") = .error "Authorization header not included" ∧
    GetBearerToken (headerOf "Bearer") = .error "malformed authorization header" ∧
    GetBearerToken (headerOf "Basic xyz") = .error "malformed authorization header" :=
  ⟨(GetBearerToken_forms (headerOf "Bearer abc123")).1 "abc123" (by decide) (by decide) rfl,
   (GetBearerToken_forms (headerOf "")).2.1 rfl,
   (GetBearerToken_forms (headerOf "Bearer")).2.2.1 (by decide) (by decide),
   (GetBearerToken_forms (headerOf "Basic xyz")).2.2.2 (by decide) (by decide)⟩

/-! ## Ids and emails -/

/-- C6 (failing input): from the new store, after two chirps are created and
the first is deleted, chirp 2 is stored with author 2 and body "b"; the next
`CreateChirp` is given the id 2 again, and afterwards `GetChirp 2` returns the
new chirp: the chirp that was stored under 2 is gone. The same happens to user
2 with `CreateUser` after `RemoveUser 1`. -/
theorem CreateChirp_reuses_stored_id :
    (runOps newDB [.CreateChirp 1 "a", .CreateChirp 2 "b", .DeleteChirp 1]).map
        (fun db => GetChirp db 2) = some (.ok { AuthorId := 2, Body := "b", Id := 2 }) ∧
    (runOps newDB [.CreateChirp 1 "a", .CreateChirp 2 "b", .DeleteChirp 1]).map
        (fun db => (CreateChirp db 3 "c").1) = some (.ok { AuthorId := 3, Body := "c", Id := 2 }) ∧
    (runOps newDB [.CreateChirp 1 "a", .CreateChirp 2 "b", .DeleteChirp 1, .CreateChirp 3 "c"]).map
        (fun db => GetChirp db 2) = some (.ok { AuthorId := 3, Body := "c", Id := 2 }) ∧
    (runOps newDB [.CreateUser "a@x.com" "pa", .CreateUser "b@x.com" "pb", .RemoveUser 1]).map
        (fun db => GetUserFromId db 2)
      = some (.ok { Id := 2, Password := "pb", Email := "b@x.com", IsChirpyRed := false }) ∧
    (runOps newDB [.CreateUser "a@x.com" "pa", .CreateUser "b@x.com" "pb", .RemoveUser 1,
        .CreateUser "c@x.com" "pc"]).map (fun db => GetUserFromId db 2)
      = some (.ok { Id := 2, Password := "pc", Email := "c@x.com", IsChirpyRed := false }) := by
  decide

/-- `CreateUser` with an email some user holds returns an error and leaves the
store as it was. -/
theorem CreateUser_held_email (db : DB) (dbs : DBStructure) (email password : String) (i : Int)
    (user : User) (hload : loadDB db = .ok dbs) (huser : dbs.Users.lookup i = some user)
    (hemail : user.Email = email) :
    CreateUser db email password = (.error "email is already in user", db) := by
  have hmem : (⟨i, user⟩ : Sigma fun _ : Int => User) ∈ dbs.Users.entries :=
    AList.mem_lookup_iff.1 huser
  cases hfind : dbs.Users.entries.find? (fun e => e.2.Email = email) with
  | none =>
    rw [List.find?_eq_none] at hfind
    exact absurd (by simpa using hemail) (hfind _ hmem)
  | some e => simp [CreateUser, hload, hasEmail, hfind]

/-- C7 (failing input): from the new store, after users 1 and 2 are created
with different emails, `UpdateUser 2` with the email of user 1 succeeds, and
afterwards users 1 and 2 hold the same email. -/
theorem UpdateUser_duplicates_email :
    (runOps newDB [.CreateUser "a@x.com" "pa", .CreateUser "b@x.com" "pb"]).map
        (fun db => (UpdateUser db 2 "a@x.com" "pb").1)
      = some (.ok { Id := 2, Password := "pb", Email := "a@x.com", IsChirpyRed := false }) ∧
    (runOps newDB [.CreateUser "a@x.com" "pa", .CreateUser "b@x.com" "pb",
        .UpdateUser 2 "a@x.com" "pb"]).map
        (fun db => ((GetUserFromId db 1).map User.Email, (GetUserFromId db 2).map User.Email))
      = some (.ok "a@x.com", .ok "a@x.com") := by
  decide

/-! ## Chirp round trip -/

theorem CreateChirp_ok (db db₁ : DB) (a : Int) (b : String) (c : Chirp)
    (h : CreateChirp db a b = (.ok c, db₁)) :
    ∃ dbs, loadDB db = .ok dbs ∧ c = { AuthorId := a, Body := b, Id := len dbs.Chirps + 1 } ∧
      loadDB db₁ = .ok { dbs with Chirps := dbs.Chirps.insert c.Id c } := by
  obtain ⟨file, werr⟩ := db
  cases file with
  | error e => simp [CreateChirp, loadDB] at h
  | ok dbs =>
    cases werr with
    | some e => simp [CreateChirp, loadDB, writeDB] at h
    | none =>
      simp only [CreateChirp, loadDB, writeDB, Prod.mk.injEq, Except.ok.injEq] at h
      obtain ⟨hc, hdb⟩ := h
      subst hc
      subst hdb
      exact ⟨dbs, rfl, rfl, rfl⟩

/-- C8: when `CreateChirp a b` succeeds with the chirp `c`, `GetChirp c.Id`
returns `c`, whose body is `b` and author `a`; for every other caller `a'`,
`IsChirpAuthor a' c.Id` is false and `chirpDeleteIdHandler`, on a request that
authenticates as `a'` and names `c.Id`, answers 403 and leaves the store as it
was, the chirp still stored; `IsChirpAuthor a c.Id` is true, and after a
successful `DeleteChirp c.Id`, `GetChirp c.Id` returns `ErrNotExist`. -/
theorem chirp_round_trip (db db₁ : DB) (a : Int) (b : String) (c : Chirp)
    (hcreate : CreateChirp db a b = (.ok c, db₁)) :
    GetChirp db₁ c.Id = .ok c ∧ c.Body = b ∧ c.AuthorId = a ∧
    (∀ a', a' ≠ a →
      IsChirpAuthor db₁ a' c.Id = false ∧
      ∀ (lib : Lib) (cfg : apiConfig) (w : ResponseWriter) (r : Request) (tok idStr : String),
        cfg.db = db₁ →
        GetBearerToken r.Header = .ok tok →
        validateJWT lib cfg.db tok "access" cfg.jwtSecret = .ok idStr →
        lib.Atoi idStr = (a', none) →
        lib.Atoi (r.URLParam "id") = (c.Id, none) →
        chirpDeleteIdHandler lib cfg w r
            = (respondWithError w StatusForbidden "Not author of chirp", db₁) ∧
          GetChirp (chirpDeleteIdHandler lib cfg w r).2 c.Id = .ok c) ∧
    IsChirpAuthor db₁ a c.Id = true ∧
    (∀ db₂, DeleteChirp db₁ c.Id = (none, db₂) → GetChirp db₂ c.Id = .error ErrNotExist) := by
  obtain ⟨dbs, _, hc, hload₁⟩ := CreateChirp_ok db db₁ a b c hcreate
  have hget : GetChirp db₁ c.Id = .ok c := by
    simp [GetChirp, hload₁, AList.lookup_insert]
  have hbody : c.Body = b := by rw [hc]
  have hauthor : c.AuthorId = a := by rw [hc]
  have hnot : ∀ a', a' ≠ a → IsChirpAuthor db₁ a' c.Id = false := by
    intro a' hne
    simp [IsChirpAuthor, hget, hauthor, Ne.symm hne]
  refine ⟨hget, hbody, hauthor, fun a' hne => ⟨hnot a' hne, ?_⟩, ?_, ?_⟩
  · intro lib cfg w r tok idStr hcfg hbearer hjwt hatoi hurl
    have hhandler : chirpDeleteIdHandler lib cfg w r
        = (respondWithError w StatusForbidden "Not author of chirp", db₁) := by
      subst hcfg
      simp [chirpDeleteIdHandler, hbearer, hjwt, hatoi, hurl, hnot a' hne]
    rw [hhandler]
    exact ⟨rfl, hget⟩
  · simp [IsChirpAuthor, hget, hauthor]
  · intro db₂ hdel
    obtain ⟨file₁, werr₁⟩ := db₁
    simp only [loadDB] at hload₁
    subst hload₁
    cases werr₁ with
    | some e => simp [DeleteChirp, loadDB, writeDB] at hdel
    | none =>
      simp only [DeleteChirp, loadDB, writeDB, Prod.mk.injEq, true_and] at hdel
      subst hdel
      simp [GetChirp, loadDB, AList.lookup_erase]

theorem chirp_round_trip_witness :
    GetChirp (CreateChirp newDB 7 "hello").2 1 = .ok { AuthorId := 7, Body := "hello", Id := 1 } ∧
    IsChirpAuthor (CreateChirp newDB 7 "hello").2 8 1 = false ∧
    (chirpDeleteIdHandler demoLib (demoConfig (CreateChirp newDB 7 "hello").2) []
        (demoRequest "Bearer A8" "1" "")).1
      = [{ code := 403, payload := .errorResponse "Not author of chirp" }] ∧
    GetChirp (chirpDeleteIdHandler demoLib (demoConfig (CreateChirp newDB 7 "hello").2) []
        (demoRequest "Bearer A8" "1" "")).2 1
      = .ok { AuthorId := 7, Body := "hello", Id := 1 } ∧
    IsChirpAuthor (CreateChirp newDB 7 "hello").2 7 1 = true ∧
    GetChirp (DeleteChirp (CreateChirp newDB 7 "hello").2 1).2 1 = .error ErrNotExist :=
  have h := chirp_round_trip newDB (CreateChirp newDB 7 "hello").2 7 "hello"
    { AuthorId := 7, Body := "hello", Id := 1 } rfl
  have h8 := (h.2.2.2.1 8 (by decide)).2 demoLib (demoConfig (CreateChirp newDB 7 "hello").2) []
    (demoRequest "Bearer A8" "1" "") "A8" "8" rfl rfl rfl rfl rfl
  ⟨h.1, (h.2.2.2.1 8 (by decide)).1, congrArg Prod.fst h8.1, h8.2, h.2.2.2.2.1,
    h.2.2.2.2.2 _ rfl⟩

/-! ## Login -/

theorem hasEmail_error (dbs : DBStructure) (email : String)
    (h : ∀ e ∈ dbs.Users.entries, e.2.Email ≠ email) : hasEmail dbs email = .error ErrNotExist := by
  have hfind : dbs.Users.entries.find? (fun e => e.2.Email = email) = none := by
    rw [List.find?_eq_none]
    intro e he
    simpa using h e he
  simp [hasEmail, hfind]

/-- C9 (counterexample): on a store with the one user "a@b.com", a login with
an email of no user is answered 500 "resource does not exist" and a login with
the email of the user and a wrong password is answered 401 "passwords don't
match": the two responses differ. -/
theorem login_reveals_unknown_email :
    (loginPostHandler demoLib (demoConfig (CreateUser newDB "a@b.com" "hash of secret1").2)
        (fun _ => 0) [] (demoRequest "" "" "x@y.com secret1")).1
      = [{ code := 500, payload := .errorResponse "resource does not exist" }] ∧
    (loginPostHandler demoLib (demoConfig (CreateUser newDB "a@b.com" "hash of secret1").2)
        (fun _ => 0) [] (demoRequest "" "" "a@b.com wrong")).1
      = [{ code := 401, payload := .errorResponse "passwords don't match" }] ∧
    (loginPostHandler demoLib (demoConfig (CreateUser newDB "a@b.com" "hash of secret1").2)
        (fun _ => 0) [] (demoRequest "" "" "x@y.com secret1")).1
      ≠ (loginPostHandler demoLib (demoConfig (CreateUser newDB "a@b.com" "hash of secret1").2)
        (fun _ => 0) [] (demoRequest "" "" "a@b.com wrong")).1 := by
  decide

/-- C9 (amended): on a store whose document loads, a login whose email belongs
to no user is answered with status 500 and the message "resource does not
exist", and a login whose email is found with a stored hash that does not match
the password is answered with status 401 and the message "passwords don't
match"; neither changes the store, and the two responses differ. -/
theorem login_failure_responses (lib : Lib) (cfg : apiConfig) (clock : Nat → Int)
    (w : ResponseWriter) (r : Request) (params : LoginParameters) (dbs : DBStructure)
    (hdecode : decodeParameters lib r = .ok params)
    (hload : loadDB cfg.db = .ok dbs) :
    ((∀ e ∈ dbs.Users.entries, e.2.Email ≠ params.Email) →
      loginPostHandler lib cfg clock w r
        = (respondWithError w StatusInternalServerError "resource does not exist", cfg.db)) ∧
    (∀ user, GetUserFromEmail cfg.db params.Email = .ok user →
      lib.CompareHashAndPassword user.Password params.Password ≠ none →
      loginPostHandler lib cfg clock w r
        = (respondWithError w StatusUnauthorized "passwords don't match", cfg.db)) ∧
    respondWithError w StatusInternalServerError "resource does not exist"
      ≠ respondWithError w StatusUnauthorized "passwords don't match" := by
  refine ⟨fun hno => ?_, fun user huser hcmp => ?_, ?_⟩
  · have hget : GetUserFromEmail cfg.db params.Email = .error ErrNotExist := by
      simp [GetUserFromEmail, hload, hasEmail_error dbs params.Email hno]
    simp [loginPostHandler, hdecode, hget, ErrNotExist]
  · cases hc : lib.CompareHashAndPassword user.Password params.Password with
    | none => exact absurd hc hcmp
    | some e => simp [loginPostHandler, hdecode, huser, hc]
  · simp [respondWithError, respondWithJSON, StatusInternalServerError, StatusUnauthorized]

theorem login_failure_responses_witness :
    loginPostHandler demoLib (demoConfig (CreateUser newDB "a@b.com" "hash of secret1").2)
        (fun _ => 0) [] (demoRequest "" "" "x@y.com secret1")
      = (respondWithError [] StatusInternalServerError "resource does not exist",
          (CreateUser newDB "a@b.com" "hash of secret1").2) ∧
    loginPostHandler demoLib (demoConfig (CreateUser newDB "a@b.com" "hash of secret1").2)
        (fun _ => 0) [] (demoRequest "" "" "a@b.com wrong")
      = (respondWithError [] StatusUnauthorized "passwords don't match",
          (CreateUser newDB "a@b.com" "hash of secret1").2) :=
  ⟨(login_failure_responses demoLib (demoConfig (CreateUser newDB "a@b.com" "hash of secret1").2)
      (fun _ => 0) [] (demoRequest "" "" "x@y.com secret1") _ _ rfl rfl).1 (by decide),
   (login_failure_responses demoLib (demoConfig (CreateUser newDB "a@b.com" "hash of secret1").2)
      (fun _ => 0) [] (demoRequest "" "" "a@b.com wrong") _ _ rfl rfl).2.1 _ rfl (by decide)⟩

/-! ## Concurrent writes -/

/-- A goroutine that runs alone does what the call does. -/
theorem runSchedule_alone (db : DB) (token : String) (now : Int) :
    runSchedule db [.atLoad (.AddToken token)] [0, 0]
      = ([.returned (AddToken db token).1], (AddToken db token).2) ∧
    runSchedule db [.atLoad (.RevokeToken token now)] [0, 0]
      = ([.returned (RevokeToken db token now).1], (RevokeToken db token now).2) := by
  obtain ⟨file, werr⟩ := db
  cases file <;> cases werr <;>
    simp [runSchedule, Goroutine.step, AddToken, RevokeToken, loadDB, writeDB, mutate]

/-- C10 (failing input): two concurrent calls of `AddToken` on the distinct
strings "t1" and "t2", scheduled load, load, write, write, both return without
error and leave one token record, the one of "t2"; two concurrent calls of
`RevokeToken` on "t1" and "t2" scheduled the same way then both return without
error and leave one record. With N = 2 the final document holds one revoked
record and the record of "t1" is lost. -/
theorem concurrent_token_writes_lose_record :
    interleavedAdds.1.all Goroutine.succeeded = true ∧
    tokenRecords interleavedAdds.2 = [("t2", { Revoked := false, Time := 0 })] ∧
    interleavedRevokes.1.all Goroutine.succeeded = true ∧
    tokenRecords interleavedRevokes.2 = [("t2", { Revoked := true, Time := 6 })] := by
  decide

/-! ## Listing the chirps -/

theorem drop_set_self (c : Chirp) : ∀ (out : List Chirp) (k : Nat), k < out.length →
    (out.set k c).drop k = c :: out.drop (k + 1) := by
  intro out
  induction out with
  | nil => intro k hk; simp at hk
  | cons x xs ih =>
    intro k hk
    cases k with
    | zero => simp
    | succ k =>
      simp only [List.length_cons, Nat.succ_lt_succ_iff] at hk
      simpa using ih k hk

theorem CountsDown_key_le (l : List (Sigma fun _ : Int => Chirp)) (h : CountsDown l) :
    ∀ e ∈ l, e.1 ≤ (l.length : Int) := by
  induction l with
  | nil => intro e he; simp at he
  | cons x xs ih =>
    intro e he
    obtain ⟨hkey, _, hxs⟩ := h
    rcases List.mem_cons.1 he with rfl | he'
    · simp [hkey]
    · have := ih hxs e he'
      simp only [List.length_cons, Nat.cast_add, Nat.cast_one]
      omega

/-- The loop of `GetChirps` on entries that count down writes every chirp at
its place and stays in range. -/
theorem foldlM_setChirp_CountsDown (l : List (Sigma fun _ : Int => Chirp)) (h : CountsDown l) :
    ∀ out : List Chirp, l.length ≤ out.length →
      l.foldlM (fun out e => setChirp out e.2) out
        = some (l.reverse.map (fun e => e.2) ++ out.drop l.length) := by
  induction l with
  | nil => intro out _; simp
  | cons x xs ih =>
    intro out hlen
    obtain ⟨hkey, hid, hxs⟩ := h
    simp only [List.length_cons] at hlen
    have hset : setChirp out x.2 = some (out.set xs.length x.2) := by
      have hidx : x.2.Id - 1 = (xs.length : Int) := by rw [hid, hkey]; omega
      have hlt : (xs.length : Int) < (out.length : Int) := by omega
      simp [setChirp, hidx, hlt]
    rw [List.foldlM_cons, hset]
    simp only [Option.bind_eq_bind, Option.some_bind]
    rw [ih hxs (out.set xs.length x.2) (by simp; omega)]
    simp [drop_set_self x.2 out xs.length (by omega)]

/-- On a store whose chirp entries count down, `GetChirps` returns the stored
chirps, each once, by increasing id. -/
theorem GetChirps_CountsDown (db : DB) (dbs : DBStructure) (hload : loadDB db = .ok dbs)
    (h : CountsDown dbs.Chirps.entries) :
    GetChirps db = some (.ok (dbs.Chirps.entries.reverse.map (fun e => e.2))) := by
  have hfold := foldlM_setChirp_CountsDown dbs.Chirps.entries h
    (List.replicate (len dbs.Chirps).toNat Chirp.zero) (by simp [len])
  simp only [GetChirps, hload, hfold]
  simp [len]

theorem CreateChirp_CountsDown (dbs dbs' : DBStructure) (author : Int) (body : String)
    (hdoc : (Op.CreateChirp author body).docAfter dbs = some dbs')
    (h : CountsDown dbs.Chirps.entries) : CountsDown dbs'.Chirps.entries := by
  simp only [Op.docAfter, Option.some.injEq] at hdoc
  subst hdoc
  have hnot : len dbs.Chirps + 1 ∉ dbs.Chirps := by
    intro hmem
    obtain ⟨c, hc⟩ := Option.isSome_iff_exists.1 (AList.lookup_isSome.2 hmem)
    have := CountsDown_key_le _ h _ (AList.mem_lookup_iff.1 hc)
    simp only [len] at this
    omega
  simp only [AList.insert_entries_of_neg hnot]
  exact ⟨rfl, rfl, h⟩

/-- Without `DeleteChirp` the listing is safe and complete: after any sequence
of `CreateChirp` calls on the new store, `GetChirps` returns the stored chirps,
each once, by increasing id. -/
theorem GetChirps_after_creates (ops : List Op) (db : DB)
    (hops : ∀ op ∈ ops, ∃ author body, op = .CreateChirp author body)
    (hrun : runOps newDB ops = some db) :
    ∃ dbs, loadDB db = .ok dbs ∧ CountsDown dbs.Chirps.entries ∧
      GetChirps db = some (.ok (dbs.Chirps.entries.reverse.map (fun e => e.2))) := by
  obtain ⟨dbs, hload, hdense⟩ :=
    runOps_preserves (fun d => CountsDown d.Chirps.entries)
      (fun op => ∃ author body, op = .CreateChirp author body)
      (fun d d' op hop hdoc hP => by
        obtain ⟨author, body, rfl⟩ := hop
        exact CreateChirp_CountsDown d d' author body hdoc hP)
      ops newDB db emptyDBStructure rfl trivial hops hrun
  exact ⟨dbs, hload, hdense, GetChirps_CountsDown db dbs hload hdense⟩

/-- C11 (failing input): from the new store, after two chirps are created and
the first is deleted, the store holds one chirp and its id is 2; the slice
write `out[2 - 1]` of `GetChirps` on a slice of length 1 is out of range, so
`GetChirps` panics and returns no list. -/
theorem GetChirps_out_of_range_after_delete :
    (runOps newDB [.CreateChirp 1 "a", .CreateChirp 2 "b", .DeleteChirp 1]).map
        (fun db => (loadDB db).map (fun dbs => dbs.Chirps.entries.map (fun e => e.2)))
      = some (.ok [{ AuthorId := 2, Body := "b", Id := 2 }]) ∧
    setChirp (List.replicate 1 Chirp.zero) { AuthorId := 2, Body := "b", Id := 2 } = none ∧
    (runOps newDB [.CreateChirp 1 "a", .CreateChirp 2 "b", .DeleteChirp 1]).map GetChirps
      = some none ∧
    (runOps newDB [.CreateChirp 1 "a", .CreateChirp 2 "b"]).map GetChirps
      = some (some (.ok [{ AuthorId := 1, Body := "a", Id := 1 },
          { AuthorId := 2, Body := "b", Id := 2 }])) := by
  decide

end Myserver
